import Mathlib

/-!
Verification of the logsift logging facade: a shallow embedding of
`filter.go` and `log.go` (filters, logger handles, emissions, runtime
configuration) together with proofs of the specification claims.

Go maps `map[string]bool` are embedded as their key set, a `List String`
kept duplicate-free by an insert-if-absent helper; membership tests in the
source (`_, ok := m[k]`) only inspect key presence, never the stored
boolean, so the key set captures the whole observable state.
-/

/-- Insert a key into a map key set, mirroring `m[k] = true`: a no-op when
the key is already present. -/
def insertKey (ks : List String) (k : String) : List String :=
  if ks.contains k then ks else ks ++ [k]

/-- Key set of a Go map literal given as an association list: later entries
do not duplicate earlier keys. -/
def dedupKeys (ks : List String) : List String :=
  ks.foldl insertKey []

/-! ## `filter.go`: the concurrent variant

The mutex only serialises access and has no sequential semantics, so the
embedding is the plain state transformer of each method body. -/

/-- State of `concurrentMapFilter`: the `allowEmptyFilter` policy flag and
the key set of the `filters` map. -/
structure concurrentMapFilter where
  allowEmptyFilter : Bool
  filters : List String
  deriving Repr, DecidableEq

/-- Go `NewConcurrentMapFilter`: empty map, given policy flag. -/
def NewConcurrentMapFilter (allowEmptyFilter : Bool) : concurrentMapFilter :=
  { allowEmptyFilter := allowEmptyFilter, filters := [] }

/-- Go `concurrentMapFilter.Add`: insert each non-empty topic. -/
def concurrentMapFilter.Add (f : concurrentMapFilter) (filters : List String) :
    concurrentMapFilter :=
  { f with filters :=
      filters.foldl (fun acc fl => if fl ≠ "" then insertKey acc fl else acc) f.filters }

/-- Go `concurrentMapFilter.Remove`: delete each non-empty topic
(`delete(f.filters, filter)`). -/
def concurrentMapFilter.Remove (f : concurrentMapFilter) (filters : List String) :
    concurrentMapFilter :=
  { f with filters :=
      filters.foldl (fun acc fl => if fl ≠ "" then acc.filter (fun k => k ≠ fl) else acc) f.filters }

/-- Go `concurrentMapFilter.Set`: start from a fresh empty map, insert each
non-empty topic. -/
def concurrentMapFilter.Set (f : concurrentMapFilter) (filters : List String) :
    concurrentMapFilter :=
  { f with filters :=
      filters.foldl (fun acc fl => if fl ≠ "" then insertKey acc fl else acc) [] }

/-- Go `concurrentMapFilter.SetMap`: adopt the supplied map (its key set),
then delete the empty-string key if present. -/
def concurrentMapFilter.SetMap (f : concurrentMapFilter) (filters : List (String × Bool)) :
    concurrentMapFilter :=
  { f with filters := (dedupKeys (filters.map Prod.fst)).filter (fun k => k ≠ "") }

/-- Go `concurrentMapFilter.SetAllowEmptyFilter`. -/
def concurrentMapFilter.SetAllowEmptyFilter (f : concurrentMapFilter) (allowEmpty : Bool) :
    concurrentMapFilter :=
  { f with allowEmptyFilter := allowEmpty }

/-- Go `concurrentMapFilter.Allows`: the `f.filters == nil || len(f.filters) == 0`
guard collapses to emptiness of the key set; the loop with early
`return true` is `List.any` of key presence. -/
def concurrentMapFilter.Allows (f : concurrentMapFilter) (values : List String) : Bool :=
  if f.filters.isEmpty then f.allowEmptyFilter
  else values.any (fun v => f.filters.contains v)

/-! ## `filter.go`: the unsynchronised variant (`unsafeMapFilter`)

The method bodies are textually identical to the concurrent variant minus
the locking, and are embedded separately, as in the source. -/

/-- State of `unsafeMapFilter`. -/
structure unsafeMapFilter where
  allowEmptyFilter : Bool
  filters : List String
  deriving Repr, DecidableEq

/-- Go `NewUnsafeMapFilter`. -/
def NewUnsafeMapFilter (allowEmptyFilter : Bool) : unsafeMapFilter :=
  { allowEmptyFilter := allowEmptyFilter, filters := [] }

/-- Go `unsafeMapFilter.Add`. -/
def unsafeMapFilter.Add (f : unsafeMapFilter) (filters : List String) : unsafeMapFilter :=
  { f with filters :=
      filters.foldl (fun acc fl => if fl ≠ "" then insertKey acc fl else acc) f.filters }

/-- Go `unsafeMapFilter.Remove`. -/
def unsafeMapFilter.Remove (f : unsafeMapFilter) (filters : List String) : unsafeMapFilter :=
  { f with filters :=
      filters.foldl (fun acc fl => if fl ≠ "" then acc.filter (fun k => k ≠ fl) else acc) f.filters }

/-- Go `unsafeMapFilter.Set`. -/
def unsafeMapFilter.Set (f : unsafeMapFilter) (filters : List String) : unsafeMapFilter :=
  { f with filters :=
      filters.foldl (fun acc fl => if fl ≠ "" then insertKey acc fl else acc) [] }

/-- Go `unsafeMapFilter.SetMap`. -/
def unsafeMapFilter.SetMap (f : unsafeMapFilter) (filters : List (String × Bool)) :
    unsafeMapFilter :=
  { f with filters := (dedupKeys (filters.map Prod.fst)).filter (fun k => k ≠ "") }

/-- Go `unsafeMapFilter.SetAllowEmptyFilter`. -/
def unsafeMapFilter.SetAllowEmptyFilter (f : unsafeMapFilter) (allowEmpty : Bool) :
    unsafeMapFilter :=
  { f with allowEmptyFilter := allowEmpty }

/-- Go `unsafeMapFilter.Allows`. -/
def unsafeMapFilter.Allows (f : unsafeMapFilter) (values : List String) : Bool :=
  if f.filters.isEmpty then f.allowEmptyFilter
  else values.any (fun v => f.filters.contains v)

/-! ## `log.go`: entry field sets

A logrus entry's `Data` is a string-keyed map; field attachment copies the
map and assigns the new keys, the new value overwriting on collision. The
embedding keeps an association list with unique keys and `setField` as the
map assignment. Field values keep the `interface\x7b\x7d` genericity as a
type parameter. -/

/-- Map assignment `data[k] = v`: overwrite the binding of `k` when
present, append it otherwise. -/
def setField {α : Type} (fields : List (String × α)) (k : String) (v : α) :
    List (String × α) :=
  match fields with
  | [] => [(k, v)]
  | (k', v') :: rest => if k' = k then (k, v) :: rest else (k', v') :: setField rest k v

/-- Map lookup `data[k]`. -/
def lookupField {α : Type} (fields : List (String × α)) (k : String) : Option α :=
  (fields.find? (fun kv => kv.1 = k)).map (fun kv => kv.2)

/-- logrus `Entry.WithFields`: assign every supplied binding into a copy of
the receiver's data. -/
def withFieldsList {α : Type} (fields new : List (String × α)) : List (String × α) :=
  new.foldl (fun acc kv => setField acc kv.1 kv.2) fields

/-! ## `log.go`: the `logger` struct

`logger` holds an embedded `*logrus.Logger`, a `*logrus.Entry` (whose own
`Logger` pointer is the sink every emission goes through), the source
format string `fmt`, and a `Filter` reference. Pointers to shared objects
are embedded as indices (`Nat`) into heaps held by the `World` below:
`sinkRef` is the entry's `Logger` pointer, `filterRef` the `logFilter`
pointer. -/

/-- The `logger` struct of `log.go`. -/
structure GoLogger (α : Type) where
  sinkRef : Nat
  entryFields : List (String × α)
  fmt : String
  filterRef : Nat
  deriving Repr, DecidableEq

/-- Go `logger.With`: `&logger\x7borigLogger, l.entry.WithField(key, value), l.fmt,
l.logFilter\x7d` — a fresh struct; the entry's sink pointer, the `fmt` string
value and the filter pointer are carried over from the receiver. -/
def GoLogger.With {α : Type} (l : GoLogger α) (key : String) (value : α) : GoLogger α :=
  { sinkRef := l.sinkRef, entryFields := setField l.entryFields key value,
    fmt := l.fmt, filterRef := l.filterRef }

/-- Go `logger.WithFields`: as `With`, via `l.entry.WithFields(fields)`. -/
def GoLogger.WithFields {α : Type} (l : GoLogger α) (fields : List (String × α)) :
    GoLogger α :=
  { sinkRef := l.sinkRef, entryFields := withFieldsList l.entryFields fields,
    fmt := l.fmt, filterRef := l.filterRef }

/-! ## `log.go`: emission world

Process-wide mutable state: the filter heap (targets of `logFilter`
pointers), the default logger struct, the sink's level and formatter, the
rendered output stream, and the prometheus error counter value. logrus
severities are ordered `panic < fatal < error < warn < info < debug <
trace` numerically, and an emission at severity `s` is written iff the
sink's level is `≥ s`. `runtime.Caller` is nondeterministic input and is
threaded as an explicit `Option (file × line)` parameter. Field values are
`String` at this level (the only field the facade itself attaches is the
`source` string). -/

/-- logrus severity levels in their numeric order. -/
inductive LogLevel where
  | panicL | fatalL | errorL | warnL | infoL | debugL | traceL
  deriving Repr, DecidableEq

/-- Numeric value of a logrus level (`PanicLevel = 0`, …, `TraceLevel = 6`). -/
def LogLevel.toNat : LogLevel → Nat
  | .panicL => 0
  | .fatalL => 1
  | .errorL => 2
  | .warnL => 3
  | .infoL => 4
  | .debugL => 5
  | .traceL => 6

/-- The sink's formatter: `logrus.JSONFormatter` or `logrus.TextFormatter`
with its `ForceColors` and `DisableColors` flags. -/
inductive Formatter where
  | jsonF
  | textF (forceColors : Bool) (disableColors : Bool)
  deriving Repr, DecidableEq

/-- Which emission variant produced a record (plain / `ln` / `f`). -/
inductive EmitStyle where
  | plain | line | formatted
  deriving Repr, DecidableEq

/-- One rendered output record: severity, entry fields at emission time
(source field included), variant, format string (empty for non-`f`
variants) and arguments. -/
structure Record where
  level : LogLevel
  fields : List (String × String)
  style : EmitStyle
  fmtStr : String
  args : List String
  deriving Repr, DecidableEq

/-- Process-wide state. -/
structure World where
  filterHeap : List concurrentMapFilter
  defaultLogger : GoLogger String
  level : LogLevel
  formatter : Formatter
  output : List Record
  errorCounter : Nat
  deriving Repr, DecidableEq

/-- Package initialisation: `logrus.New()` (level `info`, plain text
formatter) and the default `logger` with `fmt: "short"` and
`NewConcurrentMapFilter(false)` at heap slot 0. -/
def initialWorld : World :=
  { filterHeap := [NewConcurrentMapFilter false]
    defaultLogger := { sinkRef := 0, entryFields := [], fmt := "short", filterRef := 0 }
    level := .infoL
    formatter := .textF false false
    output := []
    errorCounter := 0 }

/-- Dereference a `Filter` pointer. -/
def World.filterAt (w : World) (r : Nat) : concurrentMapFilter :=
  w.filterHeap.getD r (NewConcurrentMapFilter false)

/-- Mutate the filter a pointer refers to. -/
def World.updFilterAt (w : World) (r : Nat) (g : concurrentMapFilter → concurrentMapFilter) :
    World :=
  { w with filterHeap := w.filterHeap.set r (g (w.filterAt r)) }

/-- Go `strings.LastIndex(file, "/")` then `file[slash+1:]`: the suffix after
the last separator (the whole string when none occurs), computed as the
running segment since the most recent `/`. -/
def shortFile (file : String) : String :=
  String.mk (file.toList.foldl (fun acc c => if c = '/' then [] else acc ++ [c]) [])

/-- Go `logger.withSource`: with mode `none` the entry is returned untouched;
otherwise the caller's file and line are captured (placeholder `<???>:1`
when unresolvable), the file shortened in `short` mode, and a `source`
field `" file:line "` attached. -/
def withSourceFields (fmtMode : String) (caller : Option (String × Nat))
    (fields : List (String × String)) : List (String × String) :=
  if fmtMode = "none" then fields
  else
    match caller with
    | none => setField fields "source" (" " ++ "<???>" ++ ":" ++ toString 1 ++ " ")
    | some (file, line) =>
        let file' := if fmtMode = "short" then shortFile file else file
        setField fields "source" (" " ++ file' ++ ":" ++ toString line ++ " ")

/-- Hand a record to the sink: rendered iff the sink's level admits the
severity. -/
def emitW (w : World) (lvl : LogLevel) (fields : List (String × String))
    (style : EmitStyle) (fmtStr : String) (args : List String) : World :=
  if lvl.toNat ≤ w.level.toNat then
    { w with output := w.output ++ [{ level := lvl, fields := fields, style := style,
                                      fmtStr := fmtStr, args := args }] }
  else w

/-! Unconditional emission methods: each is
`l.withSource().<Severity><variant>(args...)`. -/

/-- Go `logger.Debug`. -/
def logDebugW (w : World) (l : GoLogger String) (caller : Option (String × Nat))
    (args : List String) : World :=
  emitW w .debugL (withSourceFields l.fmt caller l.entryFields) .plain "" args

/-- Go `logger.Debugln`. -/
def logDebuglnW (w : World) (l : GoLogger String) (caller : Option (String × Nat))
    (args : List String) : World :=
  emitW w .debugL (withSourceFields l.fmt caller l.entryFields) .line "" args

/-- Go `logger.Debugf`. -/
def logDebugfW (w : World) (l : GoLogger String) (caller : Option (String × Nat))
    (msg : String) (args : List String) : World :=
  emitW w .debugL (withSourceFields l.fmt caller l.entryFields) .formatted msg args

/-- Go `logger.Info`. -/
def logInfoW (w : World) (l : GoLogger String) (caller : Option (String × Nat))
    (args : List String) : World :=
  emitW w .infoL (withSourceFields l.fmt caller l.entryFields) .plain "" args

/-- Go `logger.Infoln`. -/
def logInfolnW (w : World) (l : GoLogger String) (caller : Option (String × Nat))
    (args : List String) : World :=
  emitW w .infoL (withSourceFields l.fmt caller l.entryFields) .line "" args

/-- Go `logger.Infof`. -/
def logInfofW (w : World) (l : GoLogger String) (caller : Option (String × Nat))
    (msg : String) (args : List String) : World :=
  emitW w .infoL (withSourceFields l.fmt caller l.entryFields) .formatted msg args

/-- Go `logger.Warn`. -/
def logWarnW (w : World) (l : GoLogger String) (caller : Option (String × Nat))
    (args : List String) : World :=
  emitW w .warnL (withSourceFields l.fmt caller l.entryFields) .plain "" args

/-- Go `logger.Error`. Note: the body is only `l.withSource().Error(args...)`;
`incrementErrorCounter` is not called. -/
def logErrorW (w : World) (l : GoLogger String) (caller : Option (String × Nat))
    (args : List String) : World :=
  emitW w .errorL (withSourceFields l.fmt caller l.entryFields) .plain "" args

/-- Go `logger.Errorln`. -/
def logErrorlnW (w : World) (l : GoLogger String) (caller : Option (String × Nat))
    (args : List String) : World :=
  emitW w .errorL (withSourceFields l.fmt caller l.entryFields) .line "" args

/-- Go `logger.Errorf`. -/
def logErrorfW (w : World) (l : GoLogger String) (caller : Option (String × Nat))
    (msg : String) (args : List String) : World :=
  emitW w .errorL (withSourceFields l.fmt caller l.entryFields) .formatted msg args

/-- The variable label names the `ErrorCounter` vector is declared with:
`[]string\x7b"line"\x7d`. -/
def errorCounterLabelNames : List String := ["line"]

/-- Go prometheus `CounterVec.WithLabelValues(lvs...).Inc()`: increments
the child for the given label values, but when the number of supplied
values differs from the vector's declared label count the lookup fails
with `errInconsistentCardinality` and `WithLabelValues` panics — modeled
as `none` — so no increment happens. -/
def counterVecIncW (labelNames labelValues : List String) (w : World) : Option World :=
  if labelValues.length = labelNames.length then
    some { w with errorCounter := w.errorCounter + 1 }
  else none

/-- Go `logger.incrementErrorCounter`: `ErrorCounter.WithLabelValues().Inc()`
— zero label values supplied against the one-label vector. No emission
method of `log.go` calls it. -/
def incrementErrorCounterW (w : World) : Option World :=
  counterVecIncW errorCounterLabelNames [] w

/-! Filter management passthroughs and filter-gated emissions. -/

/-- Go `logger.FiltersAllow`: `l.logFilter.Allows(filters...)`. -/
def FiltersAllowW (w : World) (l : GoLogger String) (filters : List String) : Bool :=
  (w.filterAt l.filterRef).Allows filters

/-- Go `logger.AddFilter`: `l.logFilter.Add(filter)`. -/
def AddFilterW (w : World) (l : GoLogger String) (filter : String) : World :=
  w.updFilterAt l.filterRef (fun f => f.Add [filter])

/-- Go `logger.RemoveFilter`: `l.logFilter.Remove(filter)`. -/
def RemoveFilterW (w : World) (l : GoLogger String) (filter : String) : World :=
  w.updFilterAt l.filterRef (fun f => f.Remove [filter])

/-- Go `logger.UpdateFilter`: `l.logFilter.SetMap(filter)`. -/
def UpdateFilterW (w : World) (l : GoLogger String) (filter : List (String × Bool)) : World :=
  w.updFilterAt l.filterRef (fun f => f.SetMap filter)

/-- Go `logger.SetAllowEmptyFilter`: `l.logFilter.SetAllowEmptyFilter(allow)`. -/
def SetAllowEmptyFilterW (w : World) (l : GoLogger String) (allow : Bool) : World :=
  w.updFilterAt l.filterRef (fun f => f.SetAllowEmptyFilter allow)

/-- Go `logger.DebugFilter`. -/
def DebugFilterW (w : World) (l : GoLogger String) (caller : Option (String × Nat))
    (filter : String) (args : List String) : World :=
  if FiltersAllowW w l [filter] then logDebugW w l caller args else w

/-- Go `logger.DebugFilterLn`. -/
def DebugFilterLnW (w : World) (l : GoLogger String) (caller : Option (String × Nat))
    (filter : String) (args : List String) : World :=
  if FiltersAllowW w l [filter] then logDebuglnW w l caller args else w

/-- Go `logger.DebugFilterf`. -/
def DebugFilterfW (w : World) (l : GoLogger String) (caller : Option (String × Nat))
    (filter : String) (msg : String) (args : List String) : World :=
  if FiltersAllowW w l [filter] then logDebugfW w l caller msg args else w

/-- Go `logger.DebugFilters`. -/
def DebugFiltersW (w : World) (l : GoLogger String) (caller : Option (String × Nat))
    (filters : List String) (args : List String) : World :=
  if FiltersAllowW w l filters then logDebugW w l caller args else w

/-- Go `logger.DebugFiltersLn`. -/
def DebugFiltersLnW (w : World) (l : GoLogger String) (caller : Option (String × Nat))
    (filters : List String) (args : List String) : World :=
  if FiltersAllowW w l filters then logDebuglnW w l caller args else w

/-- Go `logger.DebugFiltersf`. -/
def DebugFiltersfW (w : World) (l : GoLogger String) (caller : Option (String × Nat))
    (filters : List String) (msg : String) (args : List String) : World :=
  if FiltersAllowW w l filters then logDebugfW w l caller msg args else w

/-- Go `logger.InfoFilter`. -/
def InfoFilterW (w : World) (l : GoLogger String) (caller : Option (String × Nat))
    (filter : String) (args : List String) : World :=
  if FiltersAllowW w l [filter] then logInfoW w l caller args else w

/-- Go `logger.InfoFilterLn`. -/
def InfoFilterLnW (w : World) (l : GoLogger String) (caller : Option (String × Nat))
    (filter : String) (args : List String) : World :=
  if FiltersAllowW w l [filter] then logInfolnW w l caller args else w

/-- Go `logger.InfoFilterf`. -/
def InfoFilterfW (w : World) (l : GoLogger String) (caller : Option (String × Nat))
    (filter : String) (msg : String) (args : List String) : World :=
  if FiltersAllowW w l [filter] then logInfofW w l caller msg args else w

/-- Go `logger.InfoFilters`. -/
def InfoFiltersW (w : World) (l : GoLogger String) (caller : Option (String × Nat))
    (filters : List String) (args : List String) : World :=
  if FiltersAllowW w l filters then logInfoW w l caller args else w

/-- Go `logger.InfoFiltersLn`. -/
def InfoFiltersLnW (w : World) (l : GoLogger String) (caller : Option (String × Nat))
    (filters : List String) (args : List String) : World :=
  if FiltersAllowW w l filters then logInfolnW w l caller args else w

/-- Go `logger.InfoFiltersf`. -/
def InfoFiltersfW (w : World) (l : GoLogger String) (caller : Option (String × Nat))
    (filters : List String) (msg : String) (args : List String) : World :=
  if FiltersAllowW w l filters then logInfofW w l caller msg args else w

/-! ## Package-level configuration surface (targets the default logger). -/

/-- Package-level `Warn`: `defaultLogger.withSource().Warn(args...)`. -/
def pkgWarnW (w : World) (caller : Option (String × Nat)) (args : List String) : World :=
  logWarnW w w.defaultLogger caller args

/-- Go `SetFormat`: the four-way switch on the format name, installing the
corresponding formatter on the sink; unrecognized names install the
default text formatter. -/
def SetFormatW (w : World) (format : String) : World :=
  if format = "json" then { w with formatter := .jsonF }
  else if format = "nocolor" then { w with formatter := .textF false true }
  else if format = "forceColor" then { w with formatter := .textF true false }
  else { w with formatter := .textF false false }

/-- Go `GetFormat`: `json` for the JSON formatter; for a text formatter,
`nocolor` iff `!ForceColors && DisableColors`, else `text`. -/
def GetFormatW (w : World) : String :=
  match w.formatter with
  | .jsonF => "json"
  | .textF fc dc => if !fc && dc then "nocolor" else "text"

/-- Go `SetSourceFormat`: `short` and `long` are stored as given; anything
else falls to the `default` branch storing `"short"`. Only the default
logger's `fmt` field is written. -/
def SetSourceFormatW (w : World) (format : String) : World :=
  if format = "short" then
    { w with defaultLogger := { w.defaultLogger with fmt := format } }
  else if format = "long" then
    { w with defaultLogger := { w.defaultLogger with fmt := format } }
  else
    { w with defaultLogger := { w.defaultLogger with fmt := "short" } }

/-- Go `GetSourceFormat`: read the default logger's `fmt` field. -/
def GetSourceFormatW (w : World) : String :=
  w.defaultLogger.fmt

/-- ASCII lowercasing of a name (`strings.ToLower` as applied to level
names). -/
def lowerString (s : String) : String :=
  String.mk (s.toList.map Char.toLower)

/-- Go `logrus.ParseLevel` on the lowercased name. -/
def parseLevel (lvl : String) : Option LogLevel :=
  let s := lowerString lvl
  if s = "panic" then some .panicL
  else if s = "fatal" then some .fatalL
  else if s = "error" then some .errorL
  else if s = "warn" then some .warnL
  else if s = "warning" then some .warnL
  else if s = "info" then some .infoL
  else if s = "debug" then some .debugL
  else if s = "trace" then some .traceL
  else none

/-- Go `SetLevel`: on a parse error the level resets to `info`; otherwise the
parsed level is installed. -/
def SetLevelW (w : World) (level : String) : World :=
  match parseLevel level with
  | none => { w with level := .infoL }
  | some lvl => { w with level := lvl }

/-- Package-level `SetAllowEmptyFilter` / `UpdateFilter`: delegate through
the default logger to the shared filter. -/
def pkgSetAllowEmptyFilterW (w : World) (allow : Bool) : World :=
  SetAllowEmptyFilterW w w.defaultLogger allow

/-- Package-level `UpdateFilter`. -/
def pkgUpdateFilterW (w : World) (filter : List (String × Bool)) : World :=
  UpdateFilterW w w.defaultLogger filter

/-- Go `strings.Split(s, ",")` over the character list: an empty input gives
one empty segment, every comma starts a new segment. -/
def splitComma : List Char → List (List Char)
  | [] => [[]]
  | c :: rest =>
      let r := splitComma rest
      if c = ',' then [] :: r
      else
        match r with
        | [] => [[c]]
        | seg :: segs => (c :: seg) :: segs

/-- Go `ParseFilters`: split on commas, skip empty segments, collect the
remaining segments as map keys mapped to `true`. -/
def ParseFilters (filters : String) : List (String × Bool) :=
  (dedupKeys (((splitComma filters.toList).map (fun cs => String.mk cs)).filter
    (fun p => p ≠ ""))).map (fun p => (p, true))

/-- Go `strconv.ParseBool`: the twelve accepted spellings. -/
def parseBool (s : String) : Option Bool :=
  if s = "1" ∨ s = "t" ∨ s = "T" ∨ s = "TRUE" ∨ s = "true" ∨ s = "True" then some true
  else if s = "0" ∨ s = "f" ∨ s = "F" ∨ s = "FALSE" ∨ s = "false" ∨ s = "False" then some false
  else none

/-- A runtime-configuration request: the six recognized form values, the
empty string standing for an absent parameter exactly as
`r.FormValue` reports it. -/
structure ConfigRequest where
  level : String
  format : String
  sourceFormat : String
  filter : String
  allowEmptyFilter : String
  resetFilter : String
  deriving Repr, DecidableEq

/-- The `Handler` closure body: each recognized parameter, in source
order, logs a warning and applies its configuration call; a boolean parse
failure on `allowEmptyFilter` or `resetFilter` logs a warning and returns,
skipping everything after it; `resetFilter=false` is a no-op. `callerH` is
the handler's own call sites for its `Warn`s. -/
def HandlerW (w : World) (r : ConfigRequest) (callerH : Option (String × Nat)) : World :=
  let w := if r.level ≠ "" then
      SetLevelW (pkgWarnW w callerH ["updating log level to ", r.level]) r.level
    else w
  let w := if r.format ≠ "" then
      SetFormatW (pkgWarnW w callerH ["updating format to ", r.format]) r.format
    else w
  let w := if r.sourceFormat ≠ "" then
      SetSourceFormatW (pkgWarnW w callerH ["updating sourceFormat to ", r.sourceFormat])
        r.sourceFormat
    else w
  let w := if r.filter ≠ "" then
      pkgUpdateFilterW (pkgWarnW w callerH ["updating filter to ", r.filter])
        (ParseFilters r.filter)
    else w
  let doReset : World → World := fun w =>
    if r.resetFilter ≠ "" then
      match parseBool r.resetFilter with
      | none => pkgWarnW w callerH ["invalid value for reset filter: ", r.resetFilter]
      | some reset =>
          if reset then pkgUpdateFilterW (pkgWarnW w callerH ["resetting filter"]) []
          else w
    else w
  if r.allowEmptyFilter ≠ "" then
    match parseBool r.allowEmptyFilter with
    | none => pkgWarnW w callerH ["invalid value for allow empty filter: ", r.allowEmptyFilter]
    | some allow =>
        doReset (pkgSetAllowEmptyFilterW
          (pkgWarnW w callerH ["updating allow empty filter to ", toString allow]) allow)
  else doReset w

/-! ## Reachable filter states

The states a filter value can be in during a process run: a constructor
call followed by any sequence of its mutation methods. -/

/-- States of the concurrent variant reachable from a constructor call by
its mutation methods. -/
inductive CReach : concurrentMapFilter → Prop where
  | new (allow : Bool) : CReach (NewConcurrentMapFilter allow)
  | add (f : concurrentMapFilter) (ts : List String) : CReach f → CReach (f.Add ts)
  | remove (f : concurrentMapFilter) (ts : List String) : CReach f → CReach (f.Remove ts)
  | set (f : concurrentMapFilter) (ts : List String) : CReach f → CReach (f.Set ts)
  | setMap (f : concurrentMapFilter) (ps : List (String × Bool)) : CReach f → CReach (f.SetMap ps)
  | setAllow (f : concurrentMapFilter) (b : Bool) : CReach f → CReach (f.SetAllowEmptyFilter b)

/-- States of the unsynchronised variant reachable from a constructor call
by its mutation methods. -/
inductive UReach : unsafeMapFilter → Prop where
  | new (allow : Bool) : UReach (NewUnsafeMapFilter allow)
  | add (f : unsafeMapFilter) (ts : List String) : UReach f → UReach (f.Add ts)
  | remove (f : unsafeMapFilter) (ts : List String) : UReach f → UReach (f.Remove ts)
  | set (f : unsafeMapFilter) (ts : List String) : UReach f → UReach (f.Set ts)
  | setMap (f : unsafeMapFilter) (ps : List (String × Bool)) : UReach f → UReach (f.SetMap ps)
  | setAllow (f : unsafeMapFilter) (b : Bool) : UReach f → UReach (f.SetAllowEmptyFilter b)

/-! ## Sanity checks on the embedding, at concrete inputs -/

example : (((NewConcurrentMapFilter false).Add ["auth"]).Allows ["db", "auth"]) = true := by
  decide
example : (((NewConcurrentMapFilter false).Add ["auth"]).Allows []) = false := by decide
example : ((NewConcurrentMapFilter true).Allows ["anything"]) = true := by decide
example : (((NewUnsafeMapFilter false).SetMap [("a", true), ("", true)]).Allows [""]) = false := by
  decide
example : shortFile "a/b/c.go" = "c.go" := rfl
example : (ParseFilters "auth,db,").map Prod.fst = ["auth", "db"] := rfl
example : ParseFilters "" = [] := rfl
example : parseLevel "WARNING" = some .warnL := rfl
example : GetSourceFormatW (SetSourceFormatW initialWorld "bogus") = "short" := rfl

/-! ## Helper lemmas on the filter embedding -/

theorem mem_insertKey (ks : List String) (k t : String) :
    t ∈ insertKey ks k ↔ t ∈ ks ∨ t = k := by
  unfold insertKey
  split
  · rename_i h
    have h : k ∈ ks := by simpa using h
    constructor
    · exact Or.inl
    · rintro (hm | rfl)
      · exact hm
      · exact h
  · simp

/-- Membership after the insert loop shared by `Add` and `Set`. -/
theorem mem_addLoop (xs : List String) : ∀ (acc : List String) (t : String),
    (t ∈ xs.foldl (fun acc fl => if fl ≠ "" then insertKey acc fl else acc) acc ↔
      t ∈ acc ∨ (t ∈ xs ∧ t ≠ "")) := by
  induction xs with
  | nil => simp
  | cons x rest ih =>
      intro acc t
      simp only [List.foldl_cons]
      by_cases hx : x = ""
      · subst hx
        simp only [ne_eq, not_true_eq_false, if_false, ih, List.mem_cons]
        constructor
        · rintro (h | ⟨h1, h2⟩)
          · exact Or.inl h
          · exact Or.inr ⟨Or.inr h1, h2⟩
        · rintro (h | ⟨h1 | h1, h2⟩)
          · exact Or.inl h
          · exact absurd h1 h2
          · exact Or.inr ⟨h1, h2⟩
      · simp only [ne_eq, hx, not_false_eq_true, if_true, ih, mem_insertKey, List.mem_cons]
        constructor
        · rintro (⟨h | rfl⟩ | ⟨h1, h2⟩)
          · exact Or.inl h
          · exact Or.inr ⟨Or.inl rfl, hx⟩
          · exact Or.inr ⟨Or.inr h1, h2⟩
        · rintro (h | ⟨rfl | h1, h2⟩)
          · exact Or.inl (Or.inl h)
          · exact Or.inl (Or.inr rfl)
          · exact Or.inr ⟨h1, h2⟩

/-- The remove loop only ever discards elements. -/
theorem mem_removeLoop (xs : List String) : ∀ (acc : List String) (t : String),
    t ∈ xs.foldl (fun acc fl => if fl ≠ "" then acc.filter (fun k => k ≠ fl) else acc) acc →
      t ∈ acc := by
  induction xs with
  | nil => intro acc t h; simpa using h
  | cons x rest ih =>
      intro acc t h
      simp only [List.foldl_cons] at h
      by_cases hx : x = ""
      · subst hx
        simpa using ih _ _ h
      · have h' := ih _ _ h
        simp only [ne_eq, hx, not_false_eq_true, if_true] at h'
        exact (List.mem_filter.mp h').1

theorem mem_dedupKeys (l : List String) (t : String) : t ∈ dedupKeys l ↔ t ∈ l := by
  suffices h : ∀ (acc : List String), t ∈ l.foldl insertKey acc ↔ t ∈ acc ∨ t ∈ l by
    simpa [dedupKeys] using h []
  induction l with
  | nil => simp
  | cons x rest ih =>
      intro acc
      simp only [List.foldl_cons, ih, mem_insertKey, List.mem_cons]
      constructor
      · rintro (⟨h | rfl⟩ | h)
        · exact Or.inl h
        · exact Or.inr (Or.inl rfl)
        · exact Or.inr (Or.inr h)
      · rintro (h | rfl | h)
        · exact Or.inl (Or.inl h)
        · exact Or.inl (Or.inr rfl)
        · exact Or.inr h

theorem allowEmpty_foldl_Add (adds : List (List String)) :
    ∀ (f : concurrentMapFilter),
      (adds.foldl (fun f as => f.Add as) f).allowEmptyFilter = f.allowEmptyFilter := by
  induction adds with
  | nil => intro f; rfl
  | cons a rest ih => intro f; exact ih (f.Add a)

theorem uAllowEmpty_foldl_Add (adds : List (List String)) :
    ∀ (f : unsafeMapFilter),
      (adds.foldl (fun f as => f.Add as) f).allowEmptyFilter = f.allowEmptyFilter := by
  induction adds with
  | nil => intro f; rfl
  | cons a rest ih => intro f; exact ih (f.Add a)

/-! ## Claims about the Filter variants -/

/-- C3: for both Filter variants and every state (hence after every
sequence of prior mutations), `Allows(topics...)` is true iff the active
set is non-empty and some supplied topic is a member; with an empty active
set it returns the current `allowEmptyFilter` value regardless of the
topics; and with zero topics on a non-empty active set it returns false. -/
theorem claim_C3 (fc : concurrentMapFilter) (fu : unsafeMapFilter) (vs : List String) :
    ((fc.Allows vs = true ↔
        ((fc.filters ≠ [] ∧ ∃ v ∈ vs, v ∈ fc.filters) ∨
          (fc.filters = [] ∧ fc.allowEmptyFilter = true)))
      ∧ (fc.filters = [] → fc.Allows vs = fc.allowEmptyFilter)
      ∧ (fc.filters ≠ [] → fc.Allows [] = false))
    ∧ ((fu.Allows vs = true ↔
        ((fu.filters ≠ [] ∧ ∃ v ∈ vs, v ∈ fu.filters) ∨
          (fu.filters = [] ∧ fu.allowEmptyFilter = true)))
      ∧ (fu.filters = [] → fu.Allows vs = fu.allowEmptyFilter)
      ∧ (fu.filters ≠ [] → fu.Allows [] = false)) := by
  constructor
  · refine ⟨?_, ?_, ?_⟩
    · unfold concurrentMapFilter.Allows
      by_cases h : fc.filters = []
      · simp [h]
      · simp [h, List.any_eq_true]
    · intro h; simp [concurrentMapFilter.Allows, h]
    · intro h; simp [concurrentMapFilter.Allows, h]
  · refine ⟨?_, ?_, ?_⟩
    · unfold unsafeMapFilter.Allows
      by_cases h : fu.filters = []
      · simp [h]
      · simp [h, List.any_eq_true]
    · intro h; simp [unsafeMapFilter.Allows, h]
    · intro h; simp [unsafeMapFilter.Allows, h]

/-- Witness for C3 at concrete states: the empty-set branch follows the
policy flag, the non-empty zero-topic branch refuses. -/
theorem claim_C3_witness :
    (NewConcurrentMapFilter true).Allows ["x"] = (NewConcurrentMapFilter true).allowEmptyFilter
      ∧ ((NewUnsafeMapFilter false).Add ["a"]).Allows [] = false :=
  ⟨(claim_C3 (NewConcurrentMapFilter true) (NewUnsafeMapFilter false) ["x"]).1.2.1 rfl,
   (claim_C3 (NewConcurrentMapFilter true) ((NewUnsafeMapFilter false).Add ["a"]) ["x"]).2.2.2
     (by decide)⟩

/-- C6: for both Filter variants, `Set` fully supersedes prior `Add`s —
`Set(xs...)` after any sequence of `Add` calls equals `Set(xs...)` alone,
and the resulting active set is exactly the non-empty topics of `xs`. -/
theorem claim_C6 (fc : concurrentMapFilter) (fu : unsafeMapFilter)
    (adds : List (List String)) (xs : List String) (t : String) :
    ((adds.foldl (fun f as => f.Add as) fc).Set xs = fc.Set xs
      ∧ (t ∈ (fc.Set xs).filters ↔ (t ∈ xs ∧ t ≠ "")))
    ∧ ((adds.foldl (fun f as => f.Add as) fu).Set xs = fu.Set xs
      ∧ (t ∈ (fu.Set xs).filters ↔ (t ∈ xs ∧ t ≠ ""))) := by
  refine ⟨⟨?_, ?_⟩, ⟨?_, ?_⟩⟩
  · unfold concurrentMapFilter.Set
    simp [allowEmpty_foldl_Add]
  · simpa [concurrentMapFilter.Set] using mem_addLoop xs [] t
  · unfold unsafeMapFilter.Set
    simp [uAllowEmpty_foldl_Add]
  · simpa [unsafeMapFilter.Set] using mem_addLoop xs [] t

example :
    (((NewConcurrentMapFilter false).Add ["a"] |>.Add ["b"] |>.Set ["x"]).Allows ["a"] = false)
    ∧ (((NewConcurrentMapFilter false).Add ["a"] |>.Add ["b"] |>.Set ["x"]).Allows ["b"] = false)
    ∧ (((NewConcurrentMapFilter false).Add ["a"] |>.Add ["b"] |>.Set ["x"]).Allows ["x"] = true) := by
  decide

theorem cReach_empty_not_mem (f : concurrentMapFilter) (h : CReach f) : "" ∉ f.filters := by
  induction h with
  | new allow => simp [NewConcurrentMapFilter]
  | add g ts _ ih =>
      intro hmem
      rcases (mem_addLoop ts g.filters "").mp hmem with h' | ⟨_, h2⟩
      · exact ih h'
      · exact h2 rfl
  | remove g ts _ ih =>
      intro hmem
      exact ih (mem_removeLoop ts g.filters "" hmem)
  | set g ts _ _ =>
      intro hmem
      rcases (mem_addLoop ts [] "").mp hmem with h' | ⟨_, h2⟩
      · simp at h'
      · exact h2 rfl
  | setMap g ps _ _ =>
      intro hmem
      have := (List.mem_filter.mp hmem).2
      simp at this
  | setAllow g b _ ih => exact ih

theorem uReach_empty_not_mem (f : unsafeMapFilter) (h : UReach f) : "" ∉ f.filters := by
  induction h with
  | new allow => simp [NewUnsafeMapFilter]
  | add g ts _ ih =>
      intro hmem
      rcases (mem_addLoop ts g.filters "").mp hmem with h' | ⟨_, h2⟩
      · exact ih h'
      · exact h2 rfl
  | remove g ts _ ih =>
      intro hmem
      exact ih (mem_removeLoop ts g.filters "" hmem)
  | set g ts _ _ =>
      intro hmem
      rcases (mem_addLoop ts [] "").mp hmem with h' | ⟨_, h2⟩
      · simp at h'
      · exact h2 rfl
  | setMap g ps _ _ =>
      intro hmem
      have := (List.mem_filter.mp hmem).2
      simp at this
  | setAllow g b _ ih => exact ih

/-- C7: for both Filter variants, after every reachable sequence of
operations the empty string is never a member of the active set, and so
`Allows("")` never answers true by membership (on a non-empty active set
it is false; the empty-set case answers by policy, not membership). -/
theorem claim_C7 :
    (∀ f : concurrentMapFilter, CReach f →
        ("" ∉ f.filters ∧ (f.filters ≠ [] → f.Allows [""] = false)))
    ∧ (∀ f : unsafeMapFilter, UReach f →
        ("" ∉ f.filters ∧ (f.filters ≠ [] → f.Allows [""] = false))) := by
  constructor
  · intro f hr
    have hne := cReach_empty_not_mem f hr
    refine ⟨hne, fun hfil => ?_⟩
    simp [concurrentMapFilter.Allows, hfil, hne]
  · intro f hr
    have hne := uReach_empty_not_mem f hr
    refine ⟨hne, fun hfil => ?_⟩
    simp [unsafeMapFilter.Allows, hfil, hne]

/-- Witness for C7 at a concrete reachable state of each variant,
mirroring the spec's `SetMap` example. -/
theorem claim_C7_witness :
    ("" ∉ ((NewConcurrentMapFilter false).SetMap [("a", true), ("", true)]).filters)
    ∧ ((NewUnsafeMapFilter false).SetMap [("a", true), ("", true)]).Allows [""] = false :=
  ⟨(claim_C7.1 _ (CReach.setMap _ [("a", true), ("", true)] (CReach.new false))).1,
   (claim_C7.2 _ (UReach.setMap _ [("a", true), ("", true)] (UReach.new false))).2 (by decide)⟩

/-! ## Helper lemmas on entry field sets -/

theorem lookupField_setField_self {α : Type} (fs : List (String × α)) (k : String) (v : α) :
    lookupField (setField fs k v) k = some v := by
  induction fs with
  | nil => simp [setField, lookupField]
  | cons p rest ih =>
      obtain ⟨k', v'⟩ := p
      by_cases h : k' = k
      · subst h
        simp [setField, lookupField]
      · simp only [setField, if_neg h]
        simpa [lookupField, List.find?_cons, h] using ih

theorem lookupField_setField_ne {α : Type} (fs : List (String × α)) (k : String) (v : α)
    (k' : String) (h : k' ≠ k) :
    lookupField (setField fs k v) k' = lookupField fs k' := by
  induction fs with
  | nil => simp [setField, lookupField, Ne.symm h]
  | cons p rest ih =>
      obtain ⟨k0, v0⟩ := p
      by_cases h0 : k0 = k
      · subst h0
        simp [setField, lookupField, List.find?_cons, Ne.symm h]
      · simp only [setField, if_neg h0]
        by_cases h1 : k0 = k'
        · subst h1
          simp [lookupField]
        · simpa [lookupField, List.find?_cons, h1] using ih

theorem lookup_withFieldsList_not_mem {α : Type} (new : List (String × α)) :
    ∀ (acc : List (String × α)) (k : String), k ∉ new.map Prod.fst →
      lookupField (withFieldsList acc new) k = lookupField acc k := by
  induction new with
  | nil => intro acc k _; rfl
  | cons p rest ih =>
      intro acc k hk
      obtain ⟨a, b⟩ := p
      simp only [List.map_cons, List.mem_cons, not_or] at hk
      calc lookupField (withFieldsList (setField acc a b) rest) k
          = lookupField (setField acc a b) k := ih _ k hk.2
        _ = lookupField acc k := lookupField_setField_ne _ _ _ _ hk.1

theorem lookup_withFieldsList_unique {α : Type} (new : List (String × α)) :
    ∀ (acc : List (String × α)) (k : String) (v : α),
      (new.map Prod.fst).count k = 1 → (k, v) ∈ new →
        lookupField (withFieldsList acc new) k = some v := by
  induction new with
  | nil => intro acc k v _ hm; simp at hm
  | cons p rest ih =>
      intro acc k v hc hm
      obtain ⟨a, b⟩ := p
      by_cases hk : k = a
      · subst hk
        have hcount : (rest.map Prod.fst).count k = 0 := by
          simpa [List.count_cons] using hc
        have hnot : k ∉ rest.map Prod.fst := by
          simpa [List.count_eq_zero] using hcount
        have hv : v = b := by
          rcases List.mem_cons.mp hm with h | h
          · exact (Prod.ext_iff.mp h).2
          · exact absurd (List.mem_map.mpr ⟨(k, v), h, rfl⟩) hnot
        subst hv
        calc lookupField (withFieldsList (setField acc k v) rest) k
            = lookupField (setField acc k v) k := lookup_withFieldsList_not_mem rest _ k hnot
          _ = some v := lookupField_setField_self _ _ _
      · have hc' : (rest.map Prod.fst).count k = 1 := by
          simpa [List.count_cons, hk] using hc
        have hm' : (k, v) ∈ rest := by
          rcases List.mem_cons.mp hm with h | h
          · exact absurd (congrArg Prod.fst h) hk
          · exact h
        exact ih _ k v hc' hm'

/-- C8: `With` and `WithFields` do not disturb the receiver (the source
builds a fresh struct, so the receiver's field set is untouched by
construction) and return a handle whose field set is the receiver's
fields plus the new binding(s), the new value winning on key collision,
and which carries the receiver's Filter pointer and sink pointer rather
than copies. -/
theorem claim_C8 {α : Type} (l : GoLogger α) (k : String) (v : α)
    (fs : List (String × α)) :
    ((l.With k v).entryFields = setField l.entryFields k v
      ∧ lookupField (l.With k v).entryFields k = some v
      ∧ (∀ k', k' ≠ k → lookupField (l.With k v).entryFields k' = lookupField l.entryFields k')
      ∧ (l.With k v).filterRef = l.filterRef
      ∧ (l.With k v).sinkRef = l.sinkRef)
    ∧ ((l.WithFields fs).entryFields = withFieldsList l.entryFields fs
      ∧ (∀ k', k' ∉ fs.map Prod.fst →
          lookupField (l.WithFields fs).entryFields k' = lookupField l.entryFields k')
      ∧ (∀ k' v', (fs.map Prod.fst).count k' = 1 → (k', v') ∈ fs →
          lookupField (l.WithFields fs).entryFields k' = some v')
      ∧ (l.WithFields fs).filterRef = l.filterRef
      ∧ (l.WithFields fs).sinkRef = l.sinkRef) := by
  refine ⟨⟨rfl, ?_, ?_, rfl, rfl⟩, ⟨rfl, ?_, ?_, rfl, rfl⟩⟩
  · exact lookupField_setField_self _ _ _
  · intro k' h
    exact lookupField_setField_ne _ _ _ _ h
  · intro k' h
    exact lookup_withFieldsList_not_mem fs _ k' h
  · intro k' v' hc hm
    exact lookup_withFieldsList_unique fs _ k' v' hc hm

/-! ## Frame lemmas on the world model

Each configuration or emission operation touches one component of the
world; these record what it leaves alone. -/

@[simp] theorem emitW_level (w : World) (lvl : LogLevel) (f : List (String × String))
    (st : EmitStyle) (m : String) (a : List String) : (emitW w lvl f st m a).level = w.level := by
  unfold emitW; split <;> rfl

@[simp] theorem emitW_formatter (w : World) (lvl : LogLevel) (f : List (String × String))
    (st : EmitStyle) (m : String) (a : List String) :
    (emitW w lvl f st m a).formatter = w.formatter := by
  unfold emitW; split <;> rfl

@[simp] theorem emitW_defaultLogger (w : World) (lvl : LogLevel) (f : List (String × String))
    (st : EmitStyle) (m : String) (a : List String) :
    (emitW w lvl f st m a).defaultLogger = w.defaultLogger := by
  unfold emitW; split <;> rfl

@[simp] theorem emitW_filterHeap (w : World) (lvl : LogLevel) (f : List (String × String))
    (st : EmitStyle) (m : String) (a : List String) :
    (emitW w lvl f st m a).filterHeap = w.filterHeap := by
  unfold emitW; split <;> rfl

@[simp] theorem emitW_errorCounter (w : World) (lvl : LogLevel) (f : List (String × String))
    (st : EmitStyle) (m : String) (a : List String) :
    (emitW w lvl f st m a).errorCounter = w.errorCounter := by
  unfold emitW; split <;> rfl

@[simp] theorem pkgWarnW_level (w : World) (c : Option (String × Nat)) (a : List String) :
    (pkgWarnW w c a).level = w.level := by simp [pkgWarnW, logWarnW]

@[simp] theorem pkgWarnW_formatter (w : World) (c : Option (String × Nat)) (a : List String) :
    (pkgWarnW w c a).formatter = w.formatter := by simp [pkgWarnW, logWarnW]

@[simp] theorem pkgWarnW_defaultLogger (w : World) (c : Option (String × Nat)) (a : List String) :
    (pkgWarnW w c a).defaultLogger = w.defaultLogger := by simp [pkgWarnW, logWarnW]

@[simp] theorem pkgWarnW_filterHeap (w : World) (c : Option (String × Nat)) (a : List String) :
    (pkgWarnW w c a).filterHeap = w.filterHeap := by simp [pkgWarnW, logWarnW]

@[simp] theorem SetLevelW_formatter (w : World) (s : String) :
    (SetLevelW w s).formatter = w.formatter := by
  unfold SetLevelW; cases parseLevel s <;> rfl

@[simp] theorem SetLevelW_defaultLogger (w : World) (s : String) :
    (SetLevelW w s).defaultLogger = w.defaultLogger := by
  unfold SetLevelW; cases parseLevel s <;> rfl

@[simp] theorem SetLevelW_filterHeap (w : World) (s : String) :
    (SetLevelW w s).filterHeap = w.filterHeap := by
  unfold SetLevelW; cases parseLevel s <;> rfl

@[simp] theorem SetFormatW_level (w : World) (s : String) :
    (SetFormatW w s).level = w.level := by
  unfold SetFormatW; split_ifs <;> rfl

@[simp] theorem SetFormatW_defaultLogger (w : World) (s : String) :
    (SetFormatW w s).defaultLogger = w.defaultLogger := by
  unfold SetFormatW; split_ifs <;> rfl

@[simp] theorem SetFormatW_filterHeap (w : World) (s : String) :
    (SetFormatW w s).filterHeap = w.filterHeap := by
  unfold SetFormatW; split_ifs <;> rfl

@[simp] theorem SetFormatW_formatter (w : World) (s : String) :
    (SetFormatW w s).formatter =
      (if s = "json" then Formatter.jsonF
       else if s = "nocolor" then Formatter.textF false true
       else if s = "forceColor" then Formatter.textF true false
       else Formatter.textF false false) := by
  unfold SetFormatW; split_ifs <;> rfl

@[simp] theorem SetSourceFormatW_level (w : World) (s : String) :
    (SetSourceFormatW w s).level = w.level := by
  unfold SetSourceFormatW; split_ifs <;> rfl

@[simp] theorem SetSourceFormatW_formatter (w : World) (s : String) :
    (SetSourceFormatW w s).formatter = w.formatter := by
  unfold SetSourceFormatW; split_ifs <;> rfl

@[simp] theorem SetSourceFormatW_filterHeap (w : World) (s : String) :
    (SetSourceFormatW w s).filterHeap = w.filterHeap := by
  unfold SetSourceFormatW; split_ifs <;> rfl

@[simp] theorem SetSourceFormatW_fmt (w : World) (s : String) :
    (SetSourceFormatW w s).defaultLogger.fmt =
      (if s = "short" then s else if s = "long" then s else "short") := by
  unfold SetSourceFormatW; split_ifs <;> rfl

@[simp] theorem SetSourceFormatW_filterRef (w : World) (s : String) :
    (SetSourceFormatW w s).defaultLogger.filterRef = w.defaultLogger.filterRef := by
  unfold SetSourceFormatW; split_ifs <;> rfl

@[simp] theorem SetSourceFormatW_entryFields (w : World) (s : String) :
    (SetSourceFormatW w s).defaultLogger.entryFields = w.defaultLogger.entryFields := by
  unfold SetSourceFormatW; split_ifs <;> rfl

@[simp] theorem SetSourceFormatW_sinkRef (w : World) (s : String) :
    (SetSourceFormatW w s).defaultLogger.sinkRef = w.defaultLogger.sinkRef := by
  unfold SetSourceFormatW; split_ifs <;> rfl

@[simp] theorem updFilterAt_level (w : World) (r : Nat)
    (g : concurrentMapFilter → concurrentMapFilter) : (w.updFilterAt r g).level = w.level := rfl

@[simp] theorem updFilterAt_formatter (w : World) (r : Nat)
    (g : concurrentMapFilter → concurrentMapFilter) :
    (w.updFilterAt r g).formatter = w.formatter := rfl

@[simp] theorem updFilterAt_defaultLogger (w : World) (r : Nat)
    (g : concurrentMapFilter → concurrentMapFilter) :
    (w.updFilterAt r g).defaultLogger = w.defaultLogger := rfl

@[simp] theorem updFilterAt_heapLength (w : World) (r : Nat)
    (g : concurrentMapFilter → concurrentMapFilter) :
    (w.updFilterAt r g).filterHeap.length = w.filterHeap.length := by
  simp [World.updFilterAt]

@[simp] theorem OpW_filterAt_pkgWarnW (w : World) (c : Option (String × Nat))
    (a : List String) (r : Nat) : (pkgWarnW w c a).filterAt r = w.filterAt r := by
  simp [World.filterAt]

@[simp] theorem OpW_filterAt_SetLevelW (w : World) (s : String) (r : Nat) :
    (SetLevelW w s).filterAt r = w.filterAt r := by
  simp [World.filterAt]

@[simp] theorem OpW_filterAt_SetFormatW (w : World) (s : String) (r : Nat) :
    (SetFormatW w s).filterAt r = w.filterAt r := by
  simp [World.filterAt]

@[simp] theorem OpW_filterAt_SetSourceFormatW (w : World) (s : String) (r : Nat) :
    (SetSourceFormatW w s).filterAt r = w.filterAt r := by
  simp [World.filterAt]

@[simp] theorem pkgUpdateFilterW_defaultLogger (w : World) (ps : List (String × Bool)) :
    (pkgUpdateFilterW w ps).defaultLogger = w.defaultLogger := rfl

@[simp] theorem pkgUpdateFilterW_level (w : World) (ps : List (String × Bool)) :
    (pkgUpdateFilterW w ps).level = w.level := rfl

@[simp] theorem pkgUpdateFilterW_formatter (w : World) (ps : List (String × Bool)) :
    (pkgUpdateFilterW w ps).formatter = w.formatter := rfl

@[simp] theorem pkgUpdateFilterW_heapLength (w : World) (ps : List (String × Bool)) :
    (pkgUpdateFilterW w ps).filterHeap.length = w.filterHeap.length := by
  simp [pkgUpdateFilterW, UpdateFilterW, World.updFilterAt]

@[simp] theorem SetMap_allowEmptyFilter (f : concurrentMapFilter) (ps : List (String × Bool)) :
    (f.SetMap ps).allowEmptyFilter = f.allowEmptyFilter := rfl

@[simp] theorem SetLevelW_level (w : World) (s : String) :
    (SetLevelW w s).level = (parseLevel s).getD LogLevel.infoL := by
  unfold SetLevelW; cases parseLevel s <;> rfl

theorem getD_set_self {α : Type} (l : List α) (i : Nat) (x d : α) (h : i < l.length) :
    (l.set i x).getD i d = x := by
  induction l generalizing i with
  | nil => simp at h
  | cons a rest ih =>
      cases i with
      | zero => rfl
      | succ n =>
          simpa [List.getD] using ih n (by simpa using h)

theorem filterAt_updFilterAt_self (w : World) (r : Nat)
    (g : concurrentMapFilter → concurrentMapFilter) (h : r < w.filterHeap.length) :
    (w.updFilterAt r g).filterAt r = g (w.filterAt r) := by
  unfold World.filterAt World.updFilterAt
  exact getD_set_self _ r _ _ h

/-- Witness for C8 at a concrete derived handle: the inherited field is
still visible and the new field reads back its value. -/
theorem claim_C8_witness :
    lookupField ((⟨0, [("a", 1)], "short", 0⟩ : GoLogger Int).With "b" 2).entryFields "a"
        = some 1
    ∧ lookupField ((⟨0, [("a", 1)], "short", 0⟩ : GoLogger Int).WithFields
        [("b", 2)]).entryFields "b" = some 2 :=
  ⟨(claim_C8 (⟨0, [("a", 1)], "short", 0⟩ : GoLogger Int) "b" 2 [("b", 2)]).1.2.2.1 "a"
      (by decide),
   (claim_C8 (⟨0, [("a", 1)], "short", 0⟩ : GoLogger Int) "b" 2 [("b", 2)]).2.2.2.1 "b" 2
      (by decide) (by simp)⟩

/-- C10: the format setting round-trips through `SetFormat`/`GetFormat`
for `json`, `nocolor` and `text`, but not for `forceColor`: after
`SetFormat("forceColor")`, `GetFormat` reads back `text`. -/
theorem claim_C10 (w : World) :
    GetFormatW (SetFormatW w "json") = "json"
    ∧ GetFormatW (SetFormatW w "nocolor") = "nocolor"
    ∧ GetFormatW (SetFormatW w "text") = "text"
    ∧ GetFormatW (SetFormatW w "forceColor") = "text"
    ∧ GetFormatW (SetFormatW w "forceColor") ≠ "forceColor" :=
  ⟨rfl, rfl, rfl, rfl, fun h => by simp [GetFormatW, SetFormatW] at h⟩

/-- C1, counterexample: an Error-severity emission on the fresh process
state is rendered (one output record) yet leaves the error counter at 0:
`Error`/`Errorln`/`Errorf` never invoke `incrementErrorCounter`, so no
emission increments the counter, contradicting the claim. -/
theorem claim_C1_counterexample :
    (logErrorW initialWorld initialWorld.defaultLogger
        (some ("a/b.go", 7)) ["boom"]).errorCounter = 0
    ∧ (logErrorW initialWorld initialWorld.defaultLogger
        (some ("a/b.go", 7)) ["boom"]).output.length = 1 :=
  ⟨rfl, rfl⟩

/-- C1, amended: Error-severity emissions leave the process-wide error
counter unchanged — `Error`, `Errorln` and `Errorf` emit without touching
it, the `incrementErrorCounter` helper being defined but never invoked by
any emission path (and no filter-gated Error path exists); the helper
itself, were it ever called, supplies zero label values to the one-label
(`line`) counter vector and so panics on the cardinality mismatch rather
than increment anything. -/
theorem claim_C1_amended (w : World) (l : GoLogger String) (c : Option (String × Nat))
    (msg : String) (args : List String) :
    (logErrorW w l c args).errorCounter = w.errorCounter
    ∧ (logErrorlnW w l c args).errorCounter = w.errorCounter
    ∧ (logErrorfW w l c msg args).errorCounter = w.errorCounter
    ∧ incrementErrorCounterW w = none := by
  refine ⟨?_, ?_, ?_, rfl⟩ <;> simp [logErrorW, logErrorlnW, logErrorfW]

/-- C4, counterexample: after `SetSourceFormat("none")` the stored mode is
`short` (the `none` value falls into the switch's default branch), and a
subsequent emission does carry a `source` field — source capture is not
suppressed, contradicting the claim. -/
theorem claim_C4_counterexample :
    GetSourceFormatW (SetSourceFormatW initialWorld "none") = "short"
    ∧ (logInfoW (SetSourceFormatW initialWorld "none")
        (SetSourceFormatW initialWorld "none").defaultLogger (some ("a/b.go", 7)) ["m"]).output
      = [{ level := .infoL, fields := [("source", " b.go:7 ")], style := .plain,
           fmtStr := "", args := ["m"] }] :=
  ⟨rfl, rfl⟩

/-- C4, amended: `withSource` suppresses source capture only when the
logger's stored mode equals `none`, but `SetSourceFormat` maps `none` and
every other unrecognized value to `short`, so emissions made after such a
`SetSourceFormat` call carry a short-form source field; the suppressing
mode is unreachable through `SetSourceFormat`. -/
theorem claim_C4_amended (w : World) (fm : String) (c : Option (String × Nat))
    (l : GoLogger String) (file : String) (n : Nat) (fields : List (String × String))
    (hfm : fm ≠ "short" ∧ fm ≠ "long") (hl : l.fmt = "none") :
    (SetSourceFormatW w fm).defaultLogger.fmt = "short"
    ∧ withSourceFields l.fmt c l.entryFields = l.entryFields
    ∧ lookupField (withSourceFields "short" (some (file, n)) fields) "source"
        = some (" " ++ shortFile file ++ ":" ++ toString n ++ " ") := by
  refine ⟨?_, ?_, ?_⟩
  · simp [hfm.1, hfm.2]
  · simp [withSourceFields, hl]
  · show lookupField (setField fields "source" _) "source" = _
    exact lookupField_setField_self _ _ _

/-- Witness for the amended C4 at concrete inputs. -/
theorem claim_C4_amended_witness :
    (SetSourceFormatW initialWorld "none").defaultLogger.fmt = "short"
    ∧ withSourceFields "none" (some ("a/b.go", 7)) [("k", "v")] = [("k", "v")]
    ∧ lookupField (withSourceFields "short" (some ("a/b.go", 7)) []) "source"
        = some " b.go:7 " :=
  claim_C4_amended initialWorld "none" (some ("a/b.go", 7))
    (⟨0, [("k", "v")], "none", 0⟩ : GoLogger String) "a/b.go" 7 []
    (by decide) rfl

/-- C2: for every filter-gated emission call with topic(s), if
`Filter.Allows` refuses, the call returns the world unchanged (nothing
emitted, and the result does not depend on the message or arguments at
all); if it allows, the call equals the corresponding unconditional
emission at that severity. -/
theorem claim_C2 (w : World) (l : GoLogger String) (c : Option (String × Nat))
    (topic : String) (topics : List String) (msg : String) (args : List String) :
    (FiltersAllowW w l [topic] = false →
      (DebugFilterW w l c topic args = w
        ∧ DebugFilterLnW w l c topic args = w
        ∧ DebugFilterfW w l c topic msg args = w
        ∧ InfoFilterW w l c topic args = w
        ∧ InfoFilterLnW w l c topic args = w
        ∧ InfoFilterfW w l c topic msg args = w))
    ∧ (FiltersAllowW w l [topic] = true →
      (DebugFilterW w l c topic args = logDebugW w l c args
        ∧ DebugFilterLnW w l c topic args = logDebuglnW w l c args
        ∧ DebugFilterfW w l c topic msg args = logDebugfW w l c msg args
        ∧ InfoFilterW w l c topic args = logInfoW w l c args
        ∧ InfoFilterLnW w l c topic args = logInfolnW w l c args
        ∧ InfoFilterfW w l c topic msg args = logInfofW w l c msg args))
    ∧ (FiltersAllowW w l topics = false →
      (DebugFiltersW w l c topics args = w
        ∧ DebugFiltersLnW w l c topics args = w
        ∧ DebugFiltersfW w l c topics msg args = w
        ∧ InfoFiltersW w l c topics args = w
        ∧ InfoFiltersLnW w l c topics args = w
        ∧ InfoFiltersfW w l c topics msg args = w))
    ∧ (FiltersAllowW w l topics = true →
      (DebugFiltersW w l c topics args = logDebugW w l c args
        ∧ DebugFiltersLnW w l c topics args = logDebuglnW w l c args
        ∧ DebugFiltersfW w l c topics msg args = logDebugfW w l c msg args
        ∧ InfoFiltersW w l c topics args = logInfoW w l c args
        ∧ InfoFiltersLnW w l c topics args = logInfolnW w l c args
        ∧ InfoFiltersfW w l c topics msg args = logInfofW w l c msg args)) := by
  refine ⟨fun h => ?_, fun h => ?_, fun h => ?_, fun h => ?_⟩ <;>
    simp [DebugFilterW, DebugFilterLnW, DebugFilterfW, InfoFilterW, InfoFilterLnW,
          InfoFilterfW, DebugFiltersW, DebugFiltersLnW, DebugFiltersfW, InfoFiltersW,
          InfoFiltersLnW, InfoFiltersfW, h]

/-- Witness for C2, mirroring the spec's end-to-end example: after
`AddFilter("db")`, `InfoFilter("auth", ...)` is a no-op while
`InfoFilter("db", ...)` equals the unconditional `Info`. -/
theorem claim_C2_witness :
    InfoFilterW (AddFilterW initialWorld initialWorld.defaultLogger "db")
        (AddFilterW initialWorld initialWorld.defaultLogger "db").defaultLogger none "auth" ["x"]
      = AddFilterW initialWorld initialWorld.defaultLogger "db"
    ∧ InfoFilterW (AddFilterW initialWorld initialWorld.defaultLogger "db")
        (AddFilterW initialWorld initialWorld.defaultLogger "db").defaultLogger none "db" ["x"]
      = logInfoW (AddFilterW initialWorld initialWorld.defaultLogger "db")
          (AddFilterW initialWorld initialWorld.defaultLogger "db").defaultLogger none ["x"] :=
  ⟨((claim_C2 (AddFilterW initialWorld initialWorld.defaultLogger "db")
      (AddFilterW initialWorld initialWorld.defaultLogger "db").defaultLogger none
      "auth" [] "" ["x"]).1 (by decide)).2.2.2.1,
   ((claim_C2 (AddFilterW initialWorld initialWorld.defaultLogger "db")
      (AddFilterW initialWorld initialWorld.defaultLogger "db").defaultLogger none
      "db" [] "" ["x"]).2.1 (by decide)).2.2.2.1⟩

/-- C9: a derived handle captures the source-format mode by value at
creation — its `fmt` is the default logger's `fmt` at that moment, a later
`SetSourceFormat` rewrites only the default logger's mode, and an emission
through the earlier handle still attaches its source under the old mode —
while a later filter mutation through the default logger is visible
through the derived handle, the Filter being shared by reference. -/
theorem claim_C9 (w : World) (k v fm topic : String) (c : Option (String × Nat))
    (args : List String) (ht : topic ≠ "")
    (href : w.defaultLogger.filterRef < w.filterHeap.length) :
    (w.defaultLogger.With k v).fmt = w.defaultLogger.fmt
    ∧ (SetSourceFormatW w fm).defaultLogger.fmt
        = (if fm = "short" then fm else if fm = "long" then fm else "short")
    ∧ logInfoW (SetSourceFormatW w fm) (w.defaultLogger.With k v) c args
        = emitW (SetSourceFormatW w fm) .infoL
            (withSourceFields w.defaultLogger.fmt c (w.defaultLogger.With k v).entryFields)
            .plain "" args
    ∧ FiltersAllowW
        (AddFilterW (SetSourceFormatW w fm) (SetSourceFormatW w fm).defaultLogger topic)
        (w.defaultLogger.With k v) [topic] = true := by
  refine ⟨rfl, by simp, rfl, ?_⟩
  have href' : w.defaultLogger.filterRef < (SetSourceFormatW w fm).filterHeap.length := by
    simpa using href
  have hAt : (AddFilterW (SetSourceFormatW w fm) (SetSourceFormatW w fm).defaultLogger
        topic).filterAt w.defaultLogger.filterRef
      = ((SetSourceFormatW w fm).filterAt w.defaultLogger.filterRef).Add [topic] := by
    unfold AddFilterW
    rw [SetSourceFormatW_filterRef]
    exact filterAt_updFilterAt_self _ _ _ href'
  have hmem : topic ∈ (((SetSourceFormatW w fm).filterAt
      w.defaultLogger.filterRef).Add [topic]).filters := by
    unfold concurrentMapFilter.Add
    exact (mem_addLoop [topic] _ topic).mpr (Or.inr ⟨List.mem_singleton_self topic, ht⟩)
  have hne : (((SetSourceFormatW w fm).filterAt
      w.defaultLogger.filterRef).Add [topic]).filters ≠ [] :=
    List.ne_nil_of_mem hmem
  show (((AddFilterW (SetSourceFormatW w fm) (SetSourceFormatW w fm).defaultLogger
      topic).filterAt (w.defaultLogger.With k v).filterRef).Allows [topic]) = true
  have hrefEq : (w.defaultLogger.With k v).filterRef = w.defaultLogger.filterRef := rfl
  rw [hrefEq, hAt]
  rw [OpW_filterAt_SetSourceFormatW] at hmem hne
  simp [concurrentMapFilter.Allows, List.isEmpty_iff, hne, hmem]

/-- Witness for C9 at concrete inputs: the earlier derived handle still
carries mode `short` after `SetSourceFormat("long")`, and the later
`AddFilter("db")` through the default logger is visible through it. -/
theorem claim_C9_witness :
    (initialWorld.defaultLogger.With "a" "1").fmt = "short"
    ∧ FiltersAllowW
        (AddFilterW (SetSourceFormatW initialWorld "long")
          (SetSourceFormatW initialWorld "long").defaultLogger "db")
        (initialWorld.defaultLogger.With "a" "1") ["db"] = true :=
  ⟨(claim_C9 initialWorld "a" "1" "long" "db" none ["m"] (by decide) (by decide)).1,
   (claim_C9 initialWorld "a" "1" "long" "db" none ["m"] (by decide) (by decide)).2.2.2⟩

/-- C5: the runtime-configuration entry point applies directives in the
order level, format, sourceFormat, filter, allowEmptyFilter, resetFilter;
when the `allowEmptyFilter` value fails to parse as a boolean, every
earlier directive present in the request is still applied (no rollback),
the `allowEmptyFilter` policy is untouched, and the later `resetFilter`
directive is not applied — the active filter set stays exactly as the
`filter` directive (or the prior state) left it, whatever `resetFilter`
says; the handler returns normally, no error reaching the caller. -/
theorem claim_C5 (w : World) (r : ConfigRequest) (c : Option (String × Nat))
    (h1 : r.allowEmptyFilter ≠ "") (h2 : parseBool r.allowEmptyFilter = none)
    (href : w.defaultLogger.filterRef < w.filterHeap.length) :
    ((r.level ≠ "" → (HandlerW w r c).level = (SetLevelW w r.level).level)
      ∧ (r.level = "" → (HandlerW w r c).level = w.level))
    ∧ ((r.format ≠ "" → (HandlerW w r c).formatter = (SetFormatW w r.format).formatter)
      ∧ (r.format = "" → (HandlerW w r c).formatter = w.formatter))
    ∧ ((r.sourceFormat ≠ "" →
          (HandlerW w r c).defaultLogger.fmt
            = (if r.sourceFormat = "short" then r.sourceFormat
               else if r.sourceFormat = "long" then r.sourceFormat else "short"))
      ∧ (r.sourceFormat = "" → (HandlerW w r c).defaultLogger.fmt = w.defaultLogger.fmt))
    ∧ ((r.filter ≠ "" → ∀ t,
          (t ∈ ((HandlerW w r c).filterAt w.defaultLogger.filterRef).filters ↔
            (t ∈ (splitComma r.filter.toList).map (fun cs => String.mk cs) ∧ t ≠ "")))
      ∧ (r.filter = "" →
          ((HandlerW w r c).filterAt w.defaultLogger.filterRef).filters
            = (w.filterAt w.defaultLogger.filterRef).filters))
    ∧ ((HandlerW w r c).filterAt w.defaultLogger.filterRef).allowEmptyFilter
        = (w.filterAt w.defaultLogger.filterRef).allowEmptyFilter := by
  rcases eq_or_ne r.level "" with hl | hl <;>
  rcases eq_or_ne r.format "" with hf | hf <;>
  rcases eq_or_ne r.sourceFormat "" with hs | hs <;>
  rcases eq_or_ne r.filter "" with hfi | hfi <;>
  simp [HandlerW, h1, h2, hl, hf, hs, hfi, href,
        pkgUpdateFilterW, UpdateFilterW, filterAt_updFilterAt_self,
        concurrentMapFilter.SetMap, ParseFilters, mem_dedupKeys, and_assoc]

/-- Witness for C5 at a concrete request carrying all six directives with
a malformed `allowEmptyFilter`: the level directive took effect, the
parsed filter topic is active (so the trailing `resetFilter=true` was not
applied), and the empty-set policy is unchanged. -/
theorem claim_C5_witness :
    (HandlerW initialWorld
        ⟨"warn", "json", "long", "auth,db", "notabool", "true"⟩ none).level
      = (SetLevelW initialWorld "warn").level
    ∧ ("auth" ∈ ((HandlerW initialWorld
        ⟨"warn", "json", "long", "auth,db", "notabool", "true"⟩ none).filterAt
          initialWorld.defaultLogger.filterRef).filters)
    ∧ ((HandlerW initialWorld
        ⟨"warn", "json", "long", "auth,db", "notabool", "true"⟩ none).filterAt
          initialWorld.defaultLogger.filterRef).allowEmptyFilter
      = (initialWorld.filterAt initialWorld.defaultLogger.filterRef).allowEmptyFilter :=
  ⟨(claim_C5 initialWorld ⟨"warn", "json", "long", "auth,db", "notabool", "true"⟩ none
      (by decide) (by decide) (by decide)).1.1 (by decide),
   ((claim_C5 initialWorld ⟨"warn", "json", "long", "auth,db", "notabool", "true"⟩ none
      (by decide) (by decide) (by decide)).2.2.2.1.1 (by decide) "auth").mpr (by decide),
   (claim_C5 initialWorld ⟨"warn", "json", "long", "auth,db", "notabool", "true"⟩ none
      (by decide) (by decide) (by decide)).2.2.2.2⟩



